import Mathlib

/-!
Verification development for the yoga pose-scoring engine
(`lambda_functions/shared/yoga_pose_analyzer.py` and
`lambda_functions/shared/dtw_simple.py`).

Python floats are modelled as exact rationals (`ℚ`); the angle values fed to
`math.acos` live in `ℝ`.  Stateless functions are translated one-to-one;
`raise` is modelled by returning `none` from an `Option`-valued function.
-/

/- ## Temporal aligner: `dtw_simple.py` -/

/-- Addition of a finite cost to a matrix cell, where `none` models the
`np.inf` with which every cell other than `C[0][0]` is initialised
(`c + inf = inf`). -/
def optAdd (c : ℚ) : Option ℚ → Option ℚ
  | none => none
  | some x => some (c + x)

/-- Minimum of two matrix cells, where `none` models `np.inf`
(`min inf x = x`). -/
def optMin : Option ℚ → Option ℚ → Option ℚ
  | none, y => y
  | some x, none => some x
  | some x, some y => some (min x y)

/-- One row of the DTW cost matrix of `dtw_distance` (`dtw_simple.py`,
lines 28-39), built from the previous row `prevRow` and the current element
`ai = seq1[i-1]`: column `0` stays at `np.inf` (`none`), and column `j+1` is
`|seq1[i-1] - seq2[j]| + min(C[i-1][j+1], C[i][j], C[i-1][j])`. -/
def dtwRowFun (seq2 : List ℚ) (ai : ℚ) (prevRow : ℕ → Option ℚ) : ℕ → Option ℚ
  | 0 => none
  | j + 1 =>
    optAdd |ai - seq2.getD j 0|
      (optMin (prevRow (j + 1)) (optMin (dtwRowFun seq2 ai prevRow j) (prevRow j)))

/-- Row `i` of the DTW cost matrix `dtw_matrix` of `dtw_distance`: row `0` is
`[0, inf, inf, ...]` and row `i+1` is obtained from row `i` by the fill loop
(the loop fills cells in increasing `i, j` order and never revisits a cell,
so the finished matrix is exactly the closure of this recurrence). -/
def dtwRowN (seq1 seq2 : List ℚ) : ℕ → (ℕ → Option ℚ)
  | 0 => fun j => if j = 0 then some 0 else none
  | i + 1 => dtwRowFun seq2 (seq1.getD i 0) (dtwRowN seq1 seq2 i)

/-- `dtw_distance` (`dtw_simple.py`, lines 10-41): the corner cell
`dtw_matrix[n, m]`; `none` models the `float('inf')` returned when one
sequence is empty and the other is not. -/
def dtw_distance (seq1 seq2 : List ℚ) : Option ℚ :=
  dtwRowN seq1 seq2 seq1.length seq2.length

/-- `normalized_dtw_distance` (`dtw_simple.py`, lines 44-58):
`distance / (len(seq1) + len(seq2))`, or `0.0` when both are empty.
An infinite distance (`none`) stays infinite under the division. -/
def normalized_dtw_distance (seq1 seq2 : List ℚ) : Option ℚ :=
  (dtw_distance seq1 seq2).map (fun d =>
    if 0 < seq1.length + seq2.length then
      d / ((seq1.length : ℚ) + (seq2.length : ℚ))
    else 0)

/-- `dtw_score` (`dtw_simple.py`, lines 61-83): `0.0` for an empty input,
otherwise `max(0, 100 - (norm_distance / max_angle_diff) * 100)`.  A `none`
(infinite) normalized distance gives `max(0.0, -inf) = 0.0` in the source,
hence the `0` in that branch. -/
def dtw_score (seq1 seq2 : List ℚ) (max_angle_diff : ℚ) : ℚ :=
  if seq1.isEmpty ∨ seq2.isEmpty then 0
  else
    match normalized_dtw_distance seq1 seq2 with
    | none => 0
    | some nd => max 0 (100 - nd / max_angle_diff * 100)

/-- Score conversion of the second, shadowing `evaluate_with_dtw` definition
(`yoga_pose_analyzer.py`, lines 666-672): the fastdtw distance is normalized
by the average sequence length `(len(test_seq) + len(golden_seq)) / 2` and
scaled against `max_distance = 30`. -/
def fastdtwScoreFromDistance (distance : ℚ) (n m : ℕ) : ℚ :=
  let avg_length : ℚ := ((n : ℚ) + (m : ℚ)) / 2
  let normalized_distance := distance / avg_length
  max 0 (100 - normalized_distance / 30 * 100)

/- ### DTW lemmas -/

theorem optMin_nonneg {u v : Option ℚ}
    (hu : ∀ x, u = some x → 0 ≤ x) (hv : ∀ x, v = some x → 0 ≤ x) :
    ∀ x, optMin u v = some x → 0 ≤ x := by
  intro x hx
  cases u with
  | none => exact hv x hx
  | some a =>
    cases v with
    | none =>
      simp only [optMin, Option.some.injEq] at hx
      exact hx ▸ hu a rfl
    | some b =>
      simp only [optMin, Option.some.injEq] at hx
      rcases le_total a b with h | h
      · rw [min_eq_left h] at hx
        exact hx ▸ hu a rfl
      · rw [min_eq_right h] at hx
        exact hx ▸ hv b rfl

/-- Every finite cell of the DTW cost matrix is nonnegative. -/
theorem dtwRowN_nonneg (seq1 seq2 : List ℚ) :
    ∀ i j x, dtwRowN seq1 seq2 i j = some x → 0 ≤ x := by
  intro i
  induction i with
  | zero =>
    intro j x hx
    cases j with
    | zero =>
      simp [dtwRowN] at hx
      linarith
    | succ j => simp [dtwRowN] at hx
  | succ i ih =>
    intro j
    induction j with
    | zero =>
      intro x hx
      simp [dtwRowN, dtwRowFun] at hx
    | succ j ihj =>
      intro x hx
      simp only [dtwRowN, dtwRowFun] at hx
      cases hmin : optMin (dtwRowN seq1 seq2 i (j + 1))
          (optMin (dtwRowFun seq2 (seq1.getD i 0) (dtwRowN seq1 seq2 i) j)
            (dtwRowN seq1 seq2 i j)) with
      | none => rw [hmin] at hx; simp [optAdd] at hx
      | some y =>
        rw [hmin] at hx
        simp only [optAdd, Option.some.injEq] at hx
        have hy : 0 ≤ y := by
          refine optMin_nonneg (fun z hz => ih (j + 1) z hz)
            (optMin_nonneg (fun z hz => ?_) (fun z hz => ih j z hz)) y hmin
          have hz' : dtwRowN seq1 seq2 (i + 1) j = some z := by
            simpa [dtwRowN] using hz
          exact ihj z hz'
        have habs : (0 : ℚ) ≤ |seq1.getD i 0 - seq2.getD j 0| := abs_nonneg _
        exact hx ▸ add_nonneg habs hy

/-- Every interior cell of the DTW cost matrix is finite. -/
theorem dtwRowN_isSome (seq1 seq2 : List ℚ) :
    ∀ i j, (dtwRowN seq1 seq2 (i + 1) (j + 1)).isSome := by
  intro i
  induction i with
  | zero =>
    intro j
    induction j with
    | zero => simp [dtwRowN, dtwRowFun, optMin, optAdd]
    | succ j ihj =>
      obtain ⟨x, hx⟩ := Option.isSome_iff_exists.mp ihj
      have step : dtwRowN seq1 seq2 1 (j + 1 + 1) =
          optAdd |seq1.getD 0 0 - seq2.getD (j + 1) 0|
            (optMin (dtwRowN seq1 seq2 0 (j + 1 + 1))
              (optMin (dtwRowN seq1 seq2 1 (j + 1)) (dtwRowN seq1 seq2 0 (j + 1)))) := rfl
      rw [step, hx]
      cases dtwRowN seq1 seq2 0 (j + 1 + 1) <;> cases dtwRowN seq1 seq2 0 (j + 1) <;>
        simp [optMin, optAdd]
  | succ i ih =>
    intro j
    obtain ⟨x, hx⟩ := Option.isSome_iff_exists.mp (ih j)
    have step : dtwRowN seq1 seq2 (i + 1 + 1) (j + 1) =
        optAdd |seq1.getD (i + 1) 0 - seq2.getD j 0|
          (optMin (dtwRowN seq1 seq2 (i + 1) (j + 1))
            (optMin (dtwRowFun seq2 (seq1.getD (i + 1) 0) (dtwRowN seq1 seq2 (i + 1)) j)
              (dtwRowN seq1 seq2 (i + 1) j))) := rfl
    rw [step, hx]
    cases dtwRowFun seq2 (seq1.getD (i + 1) 0) (dtwRowN seq1 seq2 (i + 1)) j <;>
      cases dtwRowN seq1 seq2 (i + 1) j <;> simp [optMin, optAdd]

theorem optMin_some_zero {u : Option ℚ} (hu : ∀ x, u = some x → 0 ≤ x) :
    optMin u (some 0) = some 0 := by
  cases u with
  | none => rfl
  | some a =>
    simp only [optMin, Option.some.injEq]
    exact min_eq_right (hu a rfl)

/-- Along the diagonal, the cost matrix of a sequence against itself is `0`. -/
theorem dtwRowN_self_diag (l : List ℚ) : ∀ i, dtwRowN l l i i = some 0 := by
  intro i
  induction i with
  | zero => simp [dtwRowN]
  | succ i ih =>
    simp only [dtwRowN, dtwRowFun]
    have hleft : ∀ x, dtwRowFun l (l.getD i 0) (dtwRowN l l i) i = some x → 0 ≤ x := by
      intro x hx
      have hx' : dtwRowN l l (i + 1) i = some x := by simpa [dtwRowN] using hx
      exact dtwRowN_nonneg l l (i + 1) i x hx'
    have hup : ∀ x, dtwRowN l l i (i + 1) = some x → 0 ≤ x :=
      fun x hx => dtwRowN_nonneg l l i (i + 1) x hx
    rw [ih, optMin_some_zero hleft, optMin_some_zero hup]
    simp [optAdd]

/-- C4 counterexample: the claim quantifies over every pair of sequences and
asserts the score is exactly 100 whenever `a = b`, but at the identical pair
`a = b = []` the standalone `dtw_score` returns `0.0` through its
empty-input guard (`dtw_simple.py`, lines 73-74), not 100. -/
theorem c4_empty_pair_cex :
    dtw_score ([] : List ℚ) [] 180 = 0 ∧ dtw_score ([] : List ℚ) [] 180 ≠ 100 := by
  refine ⟨rfl, ?_⟩
  intro h
  simp [dtw_score] at h

/-- C4 (amended to nonempty inputs): for nonempty `seq1`, `seq2` the
standalone `dtw_score` computes the §4.3 reference — the cost-matrix
recurrence yields a finite nonnegative distance `C[n][m]`, the score is
`max(0, 100 − (distance/(n+m))/180 × 100)`, lies in `[0, 100]`, and equals
exactly 100 on identical (nonempty) sequences. -/
theorem c4_dtw_score_spec (seq1 seq2 : List ℚ) (h1 : seq1 ≠ []) (h2 : seq2 ≠ []) :
    (∃ d, dtw_distance seq1 seq2 = some d ∧ 0 ≤ d ∧
        dtw_score seq1 seq2 180 =
          max 0 (100 - d / ((seq1.length : ℚ) + (seq2.length : ℚ)) / 180 * 100)) ∧
    0 ≤ dtw_score seq1 seq2 180 ∧ dtw_score seq1 seq2 180 ≤ 100 ∧
    (seq1 = seq2 → dtw_score seq1 seq2 180 = 100) := by
  obtain ⟨n, hn⟩ : ∃ n, seq1.length = n + 1 := by
    cases seq1 with
    | nil => exact absurd rfl h1
    | cons a l => exact ⟨l.length, rfl⟩
  obtain ⟨m, hm⟩ : ∃ m, seq2.length = m + 1 := by
    cases seq2 with
    | nil => exact absurd rfl h2
    | cons a l => exact ⟨l.length, rfl⟩
  have hsome : (dtw_distance seq1 seq2).isSome := by
    rw [dtw_distance, hn, hm]
    exact dtwRowN_isSome seq1 seq2 n m
  obtain ⟨d, hd⟩ := Option.isSome_iff_exists.mp hsome
  have hd0 : 0 ≤ d := dtwRowN_nonneg seq1 seq2 seq1.length seq2.length d hd
  have hne : ¬(seq1.isEmpty ∨ seq2.isEmpty) := by
    simp [List.isEmpty_iff, h1, h2]
  have hposn : 0 < seq1.length + seq2.length := by omega
  have hposq : (0 : ℚ) < (seq1.length : ℚ) + (seq2.length : ℚ) := by
    rw [hn, hm]; push_cast; positivity
  have hnorm : normalized_dtw_distance seq1 seq2 =
      some (d / ((seq1.length : ℚ) + (seq2.length : ℚ))) := by
    rw [normalized_dtw_distance, hd]
    simp [hposn]
  have hscore : dtw_score seq1 seq2 180 =
      max 0 (100 - d / ((seq1.length : ℚ) + (seq2.length : ℚ)) / 180 * 100) := by
    simp only [dtw_score, hnorm, if_neg hne]
  refine ⟨⟨d, hd, hd0, hscore⟩, ?_, ?_, ?_⟩
  · rw [hscore]; exact le_max_left 0 _
  · rw [hscore]
    have ht : 0 ≤ d / ((seq1.length : ℚ) + (seq2.length : ℚ)) / 180 * 100 := by
      have h180 : (0 : ℚ) ≤ 180 := by norm_num
      have h100 : (0 : ℚ) ≤ 100 := by norm_num
      exact mul_nonneg (div_nonneg (div_nonneg hd0 (le_of_lt hposq)) h180) h100
    exact max_le (by norm_num) (by linarith)
  · intro heq
    subst heq
    have hdz : dtw_distance seq1 seq1 = some 0 := by
      rw [dtw_distance]
      exact dtwRowN_self_diag seq1 seq1.length
    have : d = 0 := by
      rw [hd] at hdz
      exact (Option.some.injEq _ _).mp hdz.symm |>.symm
    rw [hscore, this]
    norm_num

/-- C4 witness: on the concrete identical pair `[10, 20, 30]` the amended
theorem yields score exactly 100. -/
theorem c4_dtw_score_witness : dtw_score [(10 : ℚ), 20, 30] [10, 20, 30] 180 = 100 :=
  (c4_dtw_score_spec [(10 : ℚ), 20, 30] [10, 20, 30] (by decide) (by decide)).2.2.2 rfl

/-- C1: the shipped evaluator does not use the §4.3 scorer.  The class defines
`evaluate_with_dtw` twice; the second definition (lines 617-681) shadows the
first (lines 452-498), so `evaluate_angles` calls the fastdtw-based variant,
which normalizes by the average length and scales by 30 instead of dividing
the `(n+m)`-normalized distance by 180.  On the 3-frame sequences `[1, 2, 3]`
and `[1, 2, 4]` (where fastdtw with radius 1 equals the exact DTW distance,
here 1) the shipped score `890/9 ≈ 98.9` differs from the §4.3 score
`5395/54 ≈ 99.9`. -/
theorem c1_live_dtw_differs_from_spec43 :
    dtw_distance [(1 : ℚ), 2, 3] [1, 2, 4] = some 1 ∧
    fastdtwScoreFromDistance 1 3 3 = 890 / 9 ∧
    dtw_score [(1 : ℚ), 2, 3] [1, 2, 4] 180 = 5395 / 54 ∧
    fastdtwScoreFromDistance 1 3 3 ≠ dtw_score [(1 : ℚ), 2, 3] [1, 2, 4] 180 := by
  have h1 : dtw_distance [(1 : ℚ), 2, 3] [1, 2, 4] = some 1 := by
    norm_num [dtw_distance, dtwRowN, dtwRowFun, optAdd, optMin]
  have h2 : fastdtwScoreFromDistance 1 3 3 = 890 / 9 := by
    norm_num [fastdtwScoreFromDistance]
  have h3 : dtw_score [(1 : ℚ), 2, 3] [1, 2, 4] 180 = 5395 / 54 := by
    norm_num [dtw_score, normalized_dtw_distance, h1]
  refine ⟨h1, h2, h3, ?_⟩
  rw [h2, h3]
  norm_num

/- ## Sequence aggregator: `create_golden_standard` (`yoga_pose_analyzer.py`, lines 387-450) -/

/-- One frame's angle document: a mapping from angle name to degrees
(a Python dict with unique keys, modelled as an association list). -/
abbrev FrameAngles := List (String × ℚ)

/-- The comprehension `[frame_angles[a] for frame_angles in angle_data if a in
frame_angles]` (lines 418-422 and 527-531). -/
def collectValues (angle_data : List FrameAngles) (angle_name : String) : List ℚ :=
  angle_data.filterMap (fun frame_angles => List.lookup angle_name frame_angles)

/-- `np.min` over a nonempty list (`0` on the empty list, which the source
never reaches thanks to the `if not values: continue` guard). -/
def listMin : List ℚ → ℚ
  | [] => 0
  | x :: xs => xs.foldl min x

/-- `np.max` over a nonempty list (`0` on the empty list, unreachable). -/
def listMax : List ℚ → ℚ
  | [] => 0
  | x :: xs => xs.foldl max x

/-- Per-angle statistics record built at lines 429-436.  `np.std` is the
square root of the mean squared deviation; the rational mean square is stored
as `variance` and the root is exposed as `GoldenStats.std`. -/
structure GoldenStats where
  mean : ℚ
  variance : ℚ
  min : ℚ
  max : ℚ
  count : ℕ
  confidence : ℚ
deriving DecidableEq

/-- `float(np.std(values_array))`: the square root of the stored variance. -/
noncomputable def GoldenStats.std (s : GoldenStats) : ℝ := Real.sqrt s.variance

/-- The golden standard document (lines 440-448).  `created_at` is a
label-only wall-clock timestamp and `metadata` an opaque payload; neither
enters any computation, so they are not modelled. -/
structure GoldenStandard where
  pose_name : String
  video_source : String
  total_frames : ℕ
  angles : List (String × GoldenStats)
  angle_sequences : List FrameAngles
deriving DecidableEq

/-- The union of angle names over all frames (lines 411-413).  Python
iterates the resulting `set` in an unspecified order; this model fixes
first-occurrence order, which no claim depends on. -/
def allAngleNames (angle_data : List FrameAngles) : List String :=
  ((angle_data.map (fun frame_angles => frame_angles.map Prod.fst)).flatten).dedup

/-- The statistics of one angle (lines 427-436): arithmetic mean, mean
squared deviation (under `np.std`'s square root), min, max, sample count and
`confidence = count / total_frames`. -/
def aggStats (values : List ℚ) (total_frames : ℕ) : GoldenStats :=
  let mean := values.sum / (values.length : ℚ)
  { mean := mean
    variance := (values.map (fun v => (v - mean) * (v - mean))).sum / (values.length : ℚ)
    min := listMin values
    max := listMax values
    count := values.length
    confidence := (values.length : ℚ) / (total_frames : ℚ) }

/-- `create_golden_standard` (lines 387-450): `ValueError` on empty input is
modelled as `none`; otherwise aggregate every observed angle name (the
`if not values: continue` guard becomes the inner `filterMap`) and retain the
raw `angle_data` under `angle_sequences`. -/
def create_golden_standard (pose_name video_source : String)
    (angle_data : List FrameAngles) : Option GoldenStandard :=
  if angle_data = [] then none
  else some
    { pose_name := pose_name
      video_source := video_source
      total_frames := angle_data.length
      angles := (allAngleNames angle_data).filterMap (fun angle_name =>
        let values := collectValues angle_data angle_name
        if values = [] then none
        else some (angle_name, aggStats values angle_data.length))
      angle_sequences := angle_data }

/- ### Aggregator lemmas -/

theorem foldl_min_le_init (xs : List ℚ) : ∀ a : ℚ, xs.foldl min a ≤ a := by
  induction xs with
  | nil => intro a; exact le_refl a
  | cons y ys ih =>
    intro a
    calc ys.foldl min (min a y) ≤ min a y := ih (min a y)
    _ ≤ a := min_le_left a y

theorem foldl_min_le_mem (xs : List ℚ) :
    ∀ a x : ℚ, x ∈ xs → xs.foldl min a ≤ x := by
  induction xs with
  | nil => intro a x hx; cases hx
  | cons y ys ih =>
    intro a x hx
    rcases List.mem_cons.mp hx with rfl | hx'
    · calc ys.foldl min (min a x) ≤ min a x := foldl_min_le_init ys (min a x)
      _ ≤ x := min_le_right a x
    · exact ih (min a y) x hx'

theorem listMin_le_mem (l : List ℚ) (x : ℚ) (hx : x ∈ l) : listMin l ≤ x := by
  cases l with
  | nil => cases hx
  | cons y ys =>
    rcases List.mem_cons.mp hx with rfl | hx'
    · exact foldl_min_le_init ys x
    · exact foldl_min_le_mem ys y x hx'

theorem init_le_foldl_max (xs : List ℚ) : ∀ a : ℚ, a ≤ xs.foldl max a := by
  induction xs with
  | nil => intro a; exact le_refl a
  | cons y ys ih =>
    intro a
    calc a ≤ max a y := le_max_left a y
    _ ≤ ys.foldl max (max a y) := ih (max a y)

theorem mem_le_foldl_max (xs : List ℚ) :
    ∀ a x : ℚ, x ∈ xs → x ≤ xs.foldl max a := by
  induction xs with
  | nil => intro a x hx; cases hx
  | cons y ys ih =>
    intro a x hx
    rcases List.mem_cons.mp hx with rfl | hx'
    · calc x ≤ max a x := le_max_right a x
      _ ≤ ys.foldl max (max a x) := init_le_foldl_max ys (max a x)
    · exact ih (max a y) x hx'

theorem mem_le_listMax (l : List ℚ) (x : ℚ) (hx : x ∈ l) : x ≤ listMax l := by
  cases l with
  | nil => cases hx
  | cons y ys =>
    rcases List.mem_cons.mp hx with rfl | hx'
    · exact init_le_foldl_max ys x
    · exact mem_le_foldl_max ys y x hx'

theorem listMin_le_mean (l : List ℚ) (h : l ≠ []) :
    listMin l ≤ l.sum / (l.length : ℚ) := by
  have hlen : (0 : ℚ) < (l.length : ℚ) := by
    exact_mod_cast List.length_pos.mpr h
  rw [le_div_iff₀ hlen]
  have hb := List.card_nsmul_le_sum l (listMin l) (fun x hx => listMin_le_mem l x hx)
  rw [nsmul_eq_mul] at hb
  calc listMin l * (l.length : ℚ) = (l.length : ℚ) * listMin l := mul_comm _ _
  _ ≤ l.sum := hb

theorem mean_le_listMax (l : List ℚ) (h : l ≠ []) :
    l.sum / (l.length : ℚ) ≤ listMax l := by
  have hlen : (0 : ℚ) < (l.length : ℚ) := by
    exact_mod_cast List.length_pos.mpr h
  rw [div_le_iff₀ hlen]
  have hb := List.sum_le_card_nsmul l (listMax l) (fun x hx => mem_le_listMax l x hx)
  rw [nsmul_eq_mul] at hb
  calc l.sum ≤ (l.length : ℚ) * listMax l := hb
  _ = listMax l * (l.length : ℚ) := mul_comm _ _

/-- C9: for every nonempty input sequence, the golden standard retains the
full input verbatim under `angle_sequences`, and `total_frames` is the input
sequence's length (lines 444-446). -/
theorem c9_sequences_retained (pose_name video_source : String)
    (angle_data : List FrameAngles) (h : angle_data ≠ []) :
    (create_golden_standard pose_name video_source angle_data).map
        GoldenStandard.angle_sequences = some angle_data ∧
    (create_golden_standard pose_name video_source angle_data).map
        GoldenStandard.total_frames = some angle_data.length := by
  rw [create_golden_standard, if_neg h]
  exact ⟨rfl, rfl⟩

/-- C9 witness: a concrete two-frame training sequence is stored verbatim
and counted. -/
theorem c9_sequences_witness :
    (create_golden_standard "downward-dog" "train.mp4"
        [[("left_knee", (170 : ℚ))], [("left_knee", 172)]]).map
        GoldenStandard.angle_sequences =
      some [[("left_knee", (170 : ℚ))], [("left_knee", 172)]] ∧
    (create_golden_standard "downward-dog" "train.mp4"
        [[("left_knee", (170 : ℚ))], [("left_knee", 172)]]).map
        GoldenStandard.total_frames = some 2 :=
  c9_sequences_retained "downward-dog" "train.mp4"
    [[("left_knee", (170 : ℚ))], [("left_knee", 172)]] (by decide)

/-- Invariants of a single `aggStats` record, for a nonempty value list whose
length is bounded by the (positive) total frame count. -/
theorem aggStats_invariants (vs : List ℚ) (total : ℕ)
    (hvs : vs ≠ []) (hle : vs.length ≤ total) (htot : 0 < total) :
    (aggStats vs total).min ≤ (aggStats vs total).mean ∧
    (aggStats vs total).mean ≤ (aggStats vs total).max ∧
    0 ≤ (aggStats vs total).std ∧
    (aggStats vs total).count ≤ total ∧
    0 ≤ (aggStats vs total).confidence ∧
    (aggStats vs total).confidence ≤ 1 ∧
    (aggStats vs total).confidence = ((aggStats vs total).count : ℚ) / (total : ℚ) := by
  have htotq : (0 : ℚ) < (total : ℚ) := by exact_mod_cast htot
  refine ⟨?_, ?_, Real.sqrt_nonneg _, hle, ?_, ?_, rfl⟩
  · show listMin vs ≤ vs.sum / (vs.length : ℚ)
    exact listMin_le_mean vs hvs
  · show vs.sum / (vs.length : ℚ) ≤ listMax vs
    exact mean_le_listMax vs hvs
  · show (0 : ℚ) ≤ (vs.length : ℚ) / (total : ℚ)
    exact div_nonneg (by positivity) (le_of_lt htotq)
  · show (vs.length : ℚ) / (total : ℚ) ≤ 1
    rw [div_le_one htotq]
    exact_mod_cast hle

/-- C8: every per-angle statistics record of a golden standard satisfies
`min ≤ mean ≤ max`, `std ≥ 0`, `count ≤ total_frames` and
`0 ≤ confidence ≤ 1`, with `confidence = count / total_frames` over the full
sequence length. -/
theorem c8_golden_stats_invariants (pose_name video_source : String)
    (angle_data : List FrameAngles) (g : GoldenStandard)
    (angle_name : String) (st : GoldenStats)
    (hg : create_golden_standard pose_name video_source angle_data = some g)
    (hm : (angle_name, st) ∈ g.angles) :
    st.min ≤ st.mean ∧ st.mean ≤ st.max ∧ 0 ≤ st.std ∧
    st.count ≤ g.total_frames ∧ 0 ≤ st.confidence ∧ st.confidence ≤ 1 ∧
    st.confidence = (st.count : ℚ) / (g.total_frames : ℚ) := by
  rcases eq_or_ne angle_data [] with hnil | hnil
  · rw [create_golden_standard, if_pos hnil] at hg
    cases hg
  · rw [create_golden_standard, if_neg hnil] at hg
    injection hg with hg
    subst hg
    simp only [List.mem_filterMap] at hm
    obtain ⟨nm, hnm_mem, hnm⟩ := hm
    by_cases hvals : collectValues angle_data nm = []
    · rw [if_pos hvals] at hnm
      cases hnm
    · rw [if_neg hvals] at hnm
      have hpair := Option.some.inj hnm
      have h1 : nm = angle_name := congrArg Prod.fst hpair
      subst h1
      have h2 : st = aggStats (collectValues angle_data nm) angle_data.length :=
        (congrArg Prod.snd hpair).symm
      subst h2
      exact aggStats_invariants (collectValues angle_data nm) angle_data.length hvals
        (List.length_filterMap_le _ _) (List.length_pos.mpr hnil)

/-- C8 witness: the two-frame sequence `[on 1], [on 3]` for angle `a` yields
stats `mean 2, variance 1, min 1, max 3, count 2, confidence 1` satisfying
every invariant. -/
theorem c8_golden_stats_witness :
    let g : GoldenStandard :=
      { pose_name := "tree-pose", video_source := "train.mp4", total_frames := 2,
        angles := [("a", { mean := 2, variance := 1, min := 1, max := 3,
                           count := 2, confidence := 1 })],
        angle_sequences := [[("a", 1)], [("a", 3)]] }
    let st : GoldenStats :=
      { mean := 2, variance := 1, min := 1, max := 3, count := 2, confidence := 1 }
    st.min ≤ st.mean ∧ st.mean ≤ st.max ∧ 0 ≤ st.std ∧
    st.count ≤ g.total_frames ∧ 0 ≤ st.confidence ∧ st.confidence ≤ 1 ∧
    st.confidence = (st.count : ℚ) / (g.total_frames : ℚ) :=
  c8_golden_stats_invariants "tree-pose" "train.mp4" [[("a", 1)], [("a", 3)]]
    { pose_name := "tree-pose", video_source := "train.mp4", total_frames := 2,
      angles := [("a", { mean := 2, variance := 1, min := 1, max := 3,
                         count := 2, confidence := 1 })],
      angle_sequences := [[("a", 1)], [("a", 3)]] }
    "a" { mean := 2, variance := 1, min := 1, max := 3, count := 2, confidence := 1 }
    (by
      norm_num [create_golden_standard, allAngleNames, collectValues, aggStats,
        listMin, listMax, List.lookup, List.dedup, List.filterMap_cons, List.filterMap_nil,
        GoldenStandard.mk.injEq, GoldenStats.mk.injEq]
      simp)
    (by simp)

/- ## Evaluation scorer: `evaluate_angles` (`yoga_pose_analyzer.py`, lines 500-615) -/

/-- Python dict access `d.get(key)` / `d[key]` on an association list with
unique keys. -/
def alookup {β : Type} (key : String) : List (String × β) → Option β
  | [] => none
  | p :: ps => if p.1 = key then some p.2 else alookup key ps

/-- Status thresholds of lines 572-580, applied to the mean-based score
variable `score`. -/
def statusOf (score : ℚ) : String :=
  if 85 ≤ score then "EXCELLENT"
  else if 70 ≤ score then "GOOD"
  else if 50 ≤ score then "NEEDS_IMPROVEMENT"
  else "POOR"

/-- The piecewise mean-based score of lines 562-570: a 30-point deduction
inside the tolerance, a 70-point decay (floored at 0) beyond it. -/
def staticScore (abs_deviation tolerance : ℚ) : ℚ :=
  if abs_deviation ≤ tolerance then 100 - abs_deviation / tolerance * 30
  else max 0 (70 - (abs_deviation - tolerance) / tolerance * 70)

/-- One entry of `angle_evaluations` (lines 591-601). -/
structure AngleEval where
  test_mean : ℚ
  golden_mean : ℚ
  deviation : ℚ
  tolerance : ℚ
  mean_based_score : ℚ
  dtw_score : Option ℚ
  combined_score : ℚ
  score : ℚ
  status : String
deriving DecidableEq

/-- The per-angle body of the evaluation loop (lines 554-601): deviation from
the golden mean, mean-based score, status computed from the mean-based score
(line 573), and the 70/30 blend with the DTW score when one is present. -/
def evalAngle (test_mean golden_mean tolerance : ℚ) (dtw : Option ℚ) : AngleEval :=
  let deviation := test_mean - golden_mean
  let score := staticScore |deviation| tolerance
  let combined_score : ℚ := match dtw with
    | some d => score * (7 / 10) + d * (3 / 10)
    | none => score
  { test_mean := test_mean, golden_mean := golden_mean, deviation := deviation,
    tolerance := tolerance, mean_based_score := score, dtw_score := dtw,
    combined_score := combined_score, score := combined_score,
    status := statusOf score }

/-- The mean of one angle over the test frames (lines 527-533), `none` when
the angle appears in no test frame (the `if values:` guard). -/
def meanOpt (test_angles : List FrameAngles) (angle_name : String) : Option ℚ :=
  let values := collectValues test_angles angle_name
  if values = [] then none
  else some (values.sum / (values.length : ℚ))

/-- `test_angle_means` (lines 525-533): a mean per golden-standard angle
observed in the test sequence. -/
def testAngleMeans (golden_angles : List (String × GoldenStats))
    (test_angles : List FrameAngles) : List (String × ℚ) :=
  golden_angles.filterMap (fun p => (meanOpt test_angles p.1).map (fun m => (p.1, m)))

/-- The result document of `evaluate_angles` (lines 611-615). -/
structure EvalResult where
  overall_score : ℚ
  angle_evaluations : List (String × AngleEval)
  total_frames : ℕ
deriving DecidableEq

/-- The evaluation loop (lines 549-606): one entry per golden-standard angle
present in `test_angle_means`, keeping the golden statistics whose
`confidence` weighs the overall score.  `tolerances.get(angle_name, 15)` is
the `.getD 15` and `dtw_scores.get(angle_name, None)` the plain `alookup`. -/
def evalEntries (tolerances dtwScores : List (String × ℚ))
    (test_angles : List FrameAngles) (golden_angles : List (String × GoldenStats)) :
    List (String × GoldenStats × AngleEval) :=
  golden_angles.filterMap (fun p =>
    (alookup p.1 (testAngleMeans golden_angles test_angles)).map (fun m =>
      (p.1, p.2, evalAngle m p.2.mean ((alookup p.1 tolerances).getD 15)
        (alookup p.1 dtwScores))))

/-- `evaluate_angles` (lines 500-615).  The `ValueError` on an empty test
sequence is `none`; the missing-`angles`-key error does not arise because the
golden table is passed directly.  `dtwScores` is the `dtw_scores` map of
line 539; in the source it comes from the second (shadowing)
`evaluate_with_dtw`, which delegates to the external `fastdtw` library, so
the map enters the model as a parameter.  `total_score`/`total_weight`
accumulated in the loop (lines 604-606) are the two sums below, and
`overall_score = total_score / total_weight if total_weight > 0 else 0.0`
(line 609). -/
def evaluate_angles (tolerances dtwScores : List (String × ℚ))
    (test_angles : List FrameAngles) (golden_angles : List (String × GoldenStats)) :
    Option EvalResult :=
  if test_angles = [] then none
  else some
    { overall_score :=
        if 0 < ((evalEntries tolerances dtwScores test_angles golden_angles).map
            (fun t => t.2.1.confidence)).sum then
          ((evalEntries tolerances dtwScores test_angles golden_angles).map
            (fun t => t.2.2.combined_score * t.2.1.confidence)).sum /
            ((evalEntries tolerances dtwScores test_angles golden_angles).map
              (fun t => t.2.1.confidence)).sum
        else 0
      angle_evaluations := (evalEntries tolerances dtwScores test_angles golden_angles).map
        (fun t => (t.1, t.2.2))
      total_frames := test_angles.length }

/-- The angles that survive step 1 of the evaluation: present in the golden
statistics table and observed in at least one test frame (the others are
skipped at lines 550-552). -/
def includedAngles (test_angles : List FrameAngles)
    (golden_angles : List (String × GoldenStats)) : List (String × GoldenStats) :=
  golden_angles.filter (fun p => !(collectValues test_angles p.1).isEmpty)

/- ### Evaluation lemmas -/

theorem alookup_keyed_filterMap_not_mem {α β : Type} (F : String → Option β)
    (l : List (String × α)) (nm : String) (hnot : nm ∉ l.map Prod.fst) :
    alookup nm (l.filterMap (fun p => (F p.1).map (fun m => (p.1, m)))) = none := by
  induction l with
  | nil => rfl
  | cons q l ih =>
    simp only [List.map_cons, List.mem_cons, not_or] at hnot
    obtain ⟨h1, h2⟩ := hnot
    cases hF : F q.1 with
    | none =>
      simp only [List.filterMap_cons, hF, Option.map_none']
      exact ih h2
    | some m =>
      simp only [List.filterMap_cons, hF, Option.map_some']
      simp only [alookup]
      rw [if_neg (fun h => h1 h.symm)]
      exact ih h2

theorem alookup_keyed_filterMap {α β : Type} (F : String → Option β)
    (l : List (String × α)) (hnd : (l.map Prod.fst).Nodup) (nm : String) (a : α)
    (hmem : (nm, a) ∈ l) :
    alookup nm (l.filterMap (fun p => (F p.1).map (fun m => (p.1, m)))) = F nm := by
  induction l with
  | nil => cases hmem
  | cons q l ih =>
    obtain ⟨k, b⟩ := q
    simp only [List.map_cons, List.nodup_cons] at hnd
    obtain ⟨hk, hnd'⟩ := hnd
    rcases List.mem_cons.mp hmem with heq | hmem'
    · have h1 : nm = k := congrArg Prod.fst heq
      subst h1
      cases hF : F nm with
      | none =>
        simp only [List.filterMap_cons, hF, Option.map_none']
        rw [alookup_keyed_filterMap_not_mem F l nm hk]
      | some m =>
        simp only [List.filterMap_cons, hF, Option.map_some']
        simp [alookup, hF]
    · have h2 : nm ≠ k := by
        intro h
        subst h
        exact hk (List.mem_map.mpr ⟨(nm, a), hmem', rfl⟩)
      cases hF : F k with
      | none =>
        simp only [List.filterMap_cons, hF, Option.map_none']
        exact ih hnd' hmem'
      | some m =>
        simp only [List.filterMap_cons, hF, Option.map_some']
        simp only [alookup]
        rw [if_neg (fun h => h2 h.symm)]
        exact ih hnd' hmem'

theorem filterMap_map_of_ite {α β γ : Type} (F : α → Option β) (g : α → β → γ)
    (pb : α → Bool) (v : α → β)
    (hF : ∀ a, F a = if pb a then some (v a) else none) :
    ∀ l : List α,
      l.filterMap (fun a => (F a).map (g a)) = (l.filter pb).map (fun a => g a (v a)) := by
  intro l
  induction l with
  | nil => rfl
  | cons x l ih =>
    cases hx : pb x <;>
      simp [List.filterMap_cons, List.filter_cons, hF x, hx, ih]

theorem zip_map_self {α β : Type} (g : α → β) (l : List α) :
    (l.map g).zip l = l.map (fun a => (g a, a)) := by
  induction l with
  | nil => rfl
  | cons x l ih => simp [ih]

/-- With unique golden keys, the evaluation entries are exactly the included
angles, each scored by `evalAngle` on its test mean. -/
theorem evalEntries_eq (tolerances dtwScores : List (String × ℚ))
    (test_angles : List FrameAngles) (golden_angles : List (String × GoldenStats))
    (hnd : (golden_angles.map Prod.fst).Nodup) :
    evalEntries tolerances dtwScores test_angles golden_angles =
      (includedAngles test_angles golden_angles).map (fun p =>
        (p.1, p.2, evalAngle
          ((collectValues test_angles p.1).sum / ((collectValues test_angles p.1).length : ℚ))
          p.2.mean ((alookup p.1 tolerances).getD 15) (alookup p.1 dtwScores))) := by
  rw [evalEntries]
  have hcongr : ∀ p ∈ golden_angles,
      (alookup p.1 (testAngleMeans golden_angles test_angles)).map (fun m =>
        (p.1, p.2, evalAngle m p.2.mean ((alookup p.1 tolerances).getD 15)
          (alookup p.1 dtwScores))) =
      (meanOpt test_angles p.1).map (fun m =>
        (p.1, p.2, evalAngle m p.2.mean ((alookup p.1 tolerances).getD 15)
          (alookup p.1 dtwScores))) := by
    intro p hp
    rw [testAngleMeans,
      alookup_keyed_filterMap (meanOpt test_angles) golden_angles hnd p.1 p.2 (by simpa using hp)]
  rw [List.filterMap_congr hcongr]
  exact filterMap_map_of_ite (fun p => meanOpt test_angles p.1)
    (fun p m => (p.1, p.2, evalAngle m p.2.mean ((alookup p.1 tolerances).getD 15)
      (alookup p.1 dtwScores)))
    (fun p => !(collectValues test_angles p.1).isEmpty)
    (fun p => (collectValues test_angles p.1).sum / ((collectValues test_angles p.1).length : ℚ))
    (fun p => by
      by_cases h : collectValues test_angles p.1 = [] <;>
        simp [meanOpt, h, List.isEmpty_iff])
    golden_angles

/-- Every entry of an evaluation result is an `evalAngle` application. -/
theorem mem_angle_evaluations (tolerances dtwScores : List (String × ℚ))
    (test_angles : List FrameAngles) (golden_angles : List (String × GoldenStats))
    (r : EvalResult) (nm : String) (e : AngleEval)
    (hr : evaluate_angles tolerances dtwScores test_angles golden_angles = some r)
    (hm : (nm, e) ∈ r.angle_evaluations) :
    ∃ test_mean golden_mean tolerance dtw, e = evalAngle test_mean golden_mean tolerance dtw := by
  rcases eq_or_ne test_angles [] with hnil | hnil
  · rw [evaluate_angles, if_pos hnil] at hr
    cases hr
  · rw [evaluate_angles, if_neg hnil] at hr
    injection hr with hr
    subst hr
    simp only [List.mem_map] at hm
    obtain ⟨t, ht, hte⟩ := hm
    simp only [evalEntries, List.mem_filterMap] at ht
    obtain ⟨p, _, hpt⟩ := ht
    cases hL : alookup p.1 (testAngleMeans golden_angles test_angles) with
    | none =>
      rw [hL] at hpt
      cases hpt
    | some m =>
      rw [hL] at hpt
      simp only [Option.map_some'] at hpt
      refine ⟨m, p.2.mean, (alookup p.1 tolerances).getD 15, alookup p.1 dtwScores, ?_⟩
      have ht2 := Option.some.inj hpt
      have he : e = t.2.2 := (congrArg Prod.snd hte).symm
      rw [he, ← ht2]

theorem statusOf_spec (s : ℚ) :
    ((statusOf s = "EXCELLENT") ↔ 85 ≤ s) ∧
    ((statusOf s = "GOOD") ↔ 70 ≤ s ∧ s < 85) ∧
    ((statusOf s = "NEEDS_IMPROVEMENT") ↔ 50 ≤ s ∧ s < 70) ∧
    ((statusOf s = "POOR") ↔ s < 50) := by
  unfold statusOf
  split_ifs with h1 h2 h3 <;>
    refine ⟨?_, ?_, ?_, ?_⟩ <;>
      simp_all <;> first | linarith | (intro h4; linarith)

/-- C2 counterexample: the status stored by `evaluate_angles` comes from the
mean-based score variable `score` (line 573), computed before the DTW blend.
With test mean equal to the golden mean and a DTW score of 0, the entry has
`combined_score = 70 < 85` yet `status = "EXCELLENT"`, so the status is not a
threshold of `combined_score`. -/
theorem c2_status_not_from_combined_cex :
    evaluate_angles [("left_knee", 10)] [("left_knee", 0)] [[("left_knee", (90 : ℚ))]]
        [("left_knee", { mean := 90, variance := 0, min := 90, max := 90,
                         count := 1, confidence := 1 })] =
      some { overall_score := 70,
             angle_evaluations := [("left_knee",
               { test_mean := 90, golden_mean := 90, deviation := 0, tolerance := 10,
                 mean_based_score := 100, dtw_score := some 0, combined_score := 70,
                 score := 70, status := "EXCELLENT" })],
             total_frames := 1 } ∧
    ¬((85 : ℚ) ≤ 70) := by
  constructor
  · norm_num [evaluate_angles, evalEntries, testAngleMeans, meanOpt, collectValues,
      alookup, evalAngle, staticScore, statusOf, List.lookup, List.filterMap_cons,
      EvalResult.mk.injEq, AngleEval.mk.injEq]
  · norm_num

/-- C2 (amended): the status of every evaluated angle is determined by
thresholding its mean-based score (`mean_based_score`), not the combined
score: EXCELLENT iff `≥ 85`, GOOD iff `70 ≤ · < 85`, NEEDS_IMPROVEMENT iff
`50 ≤ · < 70`, POOR otherwise. -/
theorem c2_status_thresholds_mean_based (tolerances dtwScores : List (String × ℚ))
    (test_angles : List FrameAngles) (golden_angles : List (String × GoldenStats))
    (r : EvalResult) (nm : String) (e : AngleEval)
    (hr : evaluate_angles tolerances dtwScores test_angles golden_angles = some r)
    (hm : (nm, e) ∈ r.angle_evaluations) :
    ((e.status = "EXCELLENT") ↔ 85 ≤ e.mean_based_score) ∧
    ((e.status = "GOOD") ↔ 70 ≤ e.mean_based_score ∧ e.mean_based_score < 85) ∧
    ((e.status = "NEEDS_IMPROVEMENT") ↔ 50 ≤ e.mean_based_score ∧ e.mean_based_score < 70) ∧
    ((e.status = "POOR") ↔ e.mean_based_score < 50) := by
  obtain ⟨tm, gm, tol, dtw, he⟩ := mem_angle_evaluations _ _ _ _ _ _ _ hr hm
  subst he
  have hst : (evalAngle tm gm tol dtw).status =
      statusOf ((evalAngle tm gm tol dtw).mean_based_score) := rfl
  rw [hst]
  exact statusOf_spec _

/-- C2 witness: on a one-frame test matching the golden mean with the
default tolerance and no DTW score, the entry has mean-based score 100 and
status EXCELLENT, and each threshold biconditional holds. -/
theorem c2_status_witness :
    let e : AngleEval :=
      { test_mean := 100, golden_mean := 100, deviation := 0, tolerance := 15,
        mean_based_score := 100, dtw_score := none, combined_score := 100,
        score := 100, status := "EXCELLENT" }
    ((e.status = "EXCELLENT") ↔ 85 ≤ e.mean_based_score) ∧
    ((e.status = "GOOD") ↔ 70 ≤ e.mean_based_score ∧ e.mean_based_score < 85) ∧
    ((e.status = "NEEDS_IMPROVEMENT") ↔ 50 ≤ e.mean_based_score ∧ e.mean_based_score < 70) ∧
    ((e.status = "POOR") ↔ e.mean_based_score < 50) :=
  c2_status_thresholds_mean_based [] [] [[("left_hip", (100 : ℚ))]]
    [("left_hip", { mean := 100, variance := 0, min := 100, max := 100,
                    count := 2, confidence := 1 / 2 })]
    { overall_score := 100,
      angle_evaluations := [("left_hip",
        { test_mean := 100, golden_mean := 100, deviation := 0, tolerance := 15,
          mean_based_score := 100, dtw_score := none, combined_score := 100,
          score := 100, status := "EXCELLENT" })],
      total_frames := 1 }
    "left_hip"
    { test_mean := 100, golden_mean := 100, deviation := 0, tolerance := 15,
      mean_based_score := 100, dtw_score := none, combined_score := 100,
      score := 100, status := "EXCELLENT" }
    (by norm_num [evaluate_angles, evalEntries, testAngleMeans, meanOpt, collectValues,
      alookup, evalAngle, staticScore, statusOf, List.lookup, List.filterMap_cons,
      EvalResult.mk.injEq, AngleEval.mk.injEq])
    (by simp)

theorem staticScore_at_tolerance (tol : ℚ) (htol : 0 < tol) : staticScore tol tol = 70 := by
  rw [staticScore, if_pos (le_refl tol), div_self (ne_of_gt htol)]
  norm_num

theorem staticScore_beyond_double (a tol : ℚ) (htol : 0 < tol) (h2 : 2 * tol ≤ a) :
    staticScore a tol = 0 := by
  have hgt : ¬ a ≤ tol := by linarith
  rw [staticScore, if_neg hgt]
  have h1 : (1 : ℚ) ≤ (a - tol) / tol := (le_div_iff₀ htol).mpr (by linarith)
  have h70 : (70 : ℚ) ≤ (a - tol) / tol * 70 := by nlinarith
  exact max_eq_left (by linarith)

/-- C5: every evaluated angle's mean-based score follows the piecewise
formula in the deviation `test_mean − golden_mean` and the tolerance: a
30-point deduction inside the tolerance, a 70-point decay beyond it; it is 70
exactly at `|deviation| = tolerance` and 0 from `|deviation| ≥ 2·tolerance`
on. -/
theorem c5_static_score_formula (tolerances dtwScores : List (String × ℚ))
    (test_angles : List FrameAngles) (golden_angles : List (String × GoldenStats))
    (r : EvalResult) (nm : String) (e : AngleEval)
    (hr : evaluate_angles tolerances dtwScores test_angles golden_angles = some r)
    (hm : (nm, e) ∈ r.angle_evaluations)
    (htol : 0 < e.tolerance) :
    e.deviation = e.test_mean - e.golden_mean ∧
    e.mean_based_score =
      (if |e.deviation| ≤ e.tolerance then 100 - |e.deviation| / e.tolerance * 30
       else max 0 (70 - (|e.deviation| - e.tolerance) / e.tolerance * 70)) ∧
    (|e.deviation| = e.tolerance → e.mean_based_score = 70) ∧
    (2 * e.tolerance ≤ |e.deviation| → e.mean_based_score = 0) := by
  obtain ⟨tm, gm, tol, dtw, he⟩ := mem_angle_evaluations _ _ _ _ _ _ _ hr hm
  subst he
  refine ⟨rfl, rfl, ?_, ?_⟩
  · intro h
    show staticScore |(evalAngle tm gm tol dtw).deviation| ((evalAngle tm gm tol dtw).tolerance) = 70
    rw [h]
    exact staticScore_at_tolerance _ htol
  · intro h
    show staticScore |(evalAngle tm gm tol dtw).deviation| ((evalAngle tm gm tol dtw).tolerance) = 0
    exact staticScore_beyond_double _ _ htol h

/-- C5 witness: the spec's worked example `golden_mean = 90, tolerance = 10,
test_mean = 95` gives `|deviation| = 5 ≤ 10` and mean-based score
`100 − 0.5 × 30 = 85`. -/
theorem c5_static_score_witness :
    let e : AngleEval :=
      { test_mean := 95, golden_mean := 90, deviation := 5, tolerance := 10,
        mean_based_score := 85, dtw_score := none, combined_score := 85,
        score := 85, status := "EXCELLENT" }
    (e.deviation = e.test_mean - e.golden_mean ∧
      e.mean_based_score =
        (if |e.deviation| ≤ e.tolerance then 100 - |e.deviation| / e.tolerance * 30
         else max 0 (70 - (|e.deviation| - e.tolerance) / e.tolerance * 70)) ∧
      (|e.deviation| = e.tolerance → e.mean_based_score = 70) ∧
      (2 * e.tolerance ≤ |e.deviation| → e.mean_based_score = 0)) ∧
    e.mean_based_score = 85 :=
  ⟨c5_static_score_formula [("right_knee", 10)] [] [[("right_knee", (95 : ℚ))]]
      [("right_knee", { mean := 90, variance := 0, min := 90, max := 90,
                        count := 1, confidence := 1 })]
      { overall_score := 85,
        angle_evaluations := [("right_knee",
          { test_mean := 95, golden_mean := 90, deviation := 5, tolerance := 10,
            mean_based_score := 85, dtw_score := none, combined_score := 85,
            score := 85, status := "EXCELLENT" })],
        total_frames := 1 }
      "right_knee"
      { test_mean := 95, golden_mean := 90, deviation := 5, tolerance := 10,
        mean_based_score := 85, dtw_score := none, combined_score := 85,
        score := 85, status := "EXCELLENT" }
      (by norm_num [evaluate_angles, evalEntries, testAngleMeans, meanOpt, collectValues,
        alookup, evalAngle, staticScore, statusOf, List.lookup, List.filterMap_cons,
        EvalResult.mk.injEq, AngleEval.mk.injEq])
      (by simp)
      (by norm_num),
    by norm_num⟩

/-- C6: every evaluated angle's combined score is the 70/30 blend
`mean_based_score × 0.7 + dtw_score × 0.3` when a DTW score is present and
equals the mean-based score when it is not; in the blended case the combined
score lies between the two scores (inclusive). -/
theorem c6_combined_score_blend (tolerances dtwScores : List (String × ℚ))
    (test_angles : List FrameAngles) (golden_angles : List (String × GoldenStats))
    (r : EvalResult) (nm : String) (e : AngleEval)
    (hr : evaluate_angles tolerances dtwScores test_angles golden_angles = some r)
    (hm : (nm, e) ∈ r.angle_evaluations) :
    (e.dtw_score = none → e.combined_score = e.mean_based_score) ∧
    (∀ d, e.dtw_score = some d →
      e.combined_score = e.mean_based_score * (7 / 10) + d * (3 / 10) ∧
      min e.mean_based_score d ≤ e.combined_score ∧
      e.combined_score ≤ max e.mean_based_score d) := by
  obtain ⟨tm, gm, tol, dtw, he⟩ := mem_angle_evaluations _ _ _ _ _ _ _ hr hm
  subst he
  cases dtw with
  | none =>
    refine ⟨fun _ => rfl, fun d hd => ?_⟩
    exact absurd hd (by simp [evalAngle])
  | some d0 =>
    refine ⟨fun h => absurd h (by simp [evalAngle]), fun d hd => ?_⟩
    have hd0 : d0 = d := Option.some.inj (by simpa [evalAngle] using hd)
    subst hd0
    have hc : (evalAngle tm gm tol (some d0)).combined_score =
        (evalAngle tm gm tol (some d0)).mean_based_score * (7 / 10) + d0 * (3 / 10) := rfl
    have h1 := min_le_left (evalAngle tm gm tol (some d0)).mean_based_score d0
    have h2 := min_le_right (evalAngle tm gm tol (some d0)).mean_based_score d0
    have h3 := le_max_left (evalAngle tm gm tol (some d0)).mean_based_score d0
    have h4 := le_max_right (evalAngle tm gm tol (some d0)).mean_based_score d0
    refine ⟨hc, ?_, ?_⟩ <;> rw [hc] <;> linarith

/-- C6 witness: with mean-based score 70 and DTW score 90 the combined score
is `70 × 0.7 + 90 × 0.3 = 76`, which lies between 70 and 90. -/
theorem c6_combined_score_witness :
    let e : AngleEval :=
      { test_mean := 100, golden_mean := 90, deviation := 10, tolerance := 10,
        mean_based_score := 70, dtw_score := some 90, combined_score := 76,
        score := 76, status := "GOOD" }
    (e.dtw_score = none → e.combined_score = e.mean_based_score) ∧
    (∀ d, e.dtw_score = some d →
      e.combined_score = e.mean_based_score * (7 / 10) + d * (3 / 10) ∧
      min e.mean_based_score d ≤ e.combined_score ∧
      e.combined_score ≤ max e.mean_based_score d) :=
  c6_combined_score_blend [("left_elbow", 10)] [("left_elbow", 90)]
    [[("left_elbow", (100 : ℚ))]]
    [("left_elbow", { mean := 90, variance := 0, min := 90, max := 90,
                      count := 1, confidence := 1 })]
    { overall_score := 76,
      angle_evaluations := [("left_elbow",
        { test_mean := 100, golden_mean := 90, deviation := 10, tolerance := 10,
          mean_based_score := 70, dtw_score := some 90, combined_score := 76,
          score := 76, status := "GOOD" })],
      total_frames := 1 }
    "left_elbow"
    { test_mean := 100, golden_mean := 90, deviation := 10, tolerance := 10,
      mean_based_score := 70, dtw_score := some 90, combined_score := 76,
      score := 76, status := "GOOD" }
    (by norm_num [evaluate_angles, evalEntries, testAngleMeans, meanOpt, collectValues,
      alookup, evalAngle, staticScore, statusOf, List.lookup, List.filterMap_cons,
      EvalResult.mk.injEq, AngleEval.mk.injEq])
    (by simp)

/-- C7: the overall score is the confidence-weighted mean of the combined
scores over exactly the included angles — golden-standard angles observed in
at least one test frame; an angle absent from every test frame contributes
neither score nor weight; with no included angles the overall score is 0. -/
theorem c7_overall_score_weighted (tolerances dtwScores : List (String × ℚ))
    (test_angles : List FrameAngles) (golden_angles : List (String × GoldenStats))
    (r : EvalResult)
    (hr : evaluate_angles tolerances dtwScores test_angles golden_angles = some r)
    (hnd : (golden_angles.map Prod.fst).Nodup)
    (hconf : ∀ p ∈ golden_angles, 0 < p.2.confidence) :
    r.angle_evaluations.map Prod.fst =
      (includedAngles test_angles golden_angles).map Prod.fst ∧
    (includedAngles test_angles golden_angles = [] → r.overall_score = 0) ∧
    (includedAngles test_angles golden_angles ≠ [] →
      0 < ((includedAngles test_angles golden_angles).map (fun p => p.2.confidence)).sum ∧
      r.overall_score =
        ((r.angle_evaluations.zip (includedAngles test_angles golden_angles)).map
          (fun q => q.1.2.combined_score * q.2.2.confidence)).sum /
        ((includedAngles test_angles golden_angles).map (fun p => p.2.confidence)).sum) := by
  rcases eq_or_ne test_angles [] with hnil | hnil
  · rw [evaluate_angles, if_pos hnil] at hr
    cases hr
  · rw [evaluate_angles, if_neg hnil] at hr
    have hrr := Option.some.inj hr
    have hAE : r.angle_evaluations =
        (evalEntries tolerances dtwScores test_angles golden_angles).map
          (fun t => (t.1, t.2.2)) := by
      rw [← hrr]
    have hOS : r.overall_score =
        if 0 < ((evalEntries tolerances dtwScores test_angles golden_angles).map
            (fun t => t.2.1.confidence)).sum then
          ((evalEntries tolerances dtwScores test_angles golden_angles).map
            (fun t => t.2.2.combined_score * t.2.1.confidence)).sum /
            ((evalEntries tolerances dtwScores test_angles golden_angles).map
              (fun t => t.2.1.confidence)).sum
        else 0 := by
      rw [← hrr]
    have hE := evalEntries_eq tolerances dtwScores test_angles golden_angles hnd
    have hW : ((evalEntries tolerances dtwScores test_angles golden_angles).map
        (fun t => t.2.1.confidence)).sum =
        ((includedAngles test_angles golden_angles).map (fun p => p.2.confidence)).sum := by
      rw [hE, List.map_map]
      rfl
    refine ⟨?_, ?_, ?_⟩
    · rw [hAE, hE, List.map_map, List.map_map]
      rfl
    · intro h
      rw [hOS, hW, h]
      simp
    · intro h
      have hpos : 0 < ((includedAngles test_angles golden_angles).map
          (fun p => p.2.confidence)).sum := by
        refine List.sum_pos _ ?_ ?_
        · intro x hx
          obtain ⟨p, hp, rfl⟩ := List.mem_map.mp hx
          exact hconf p (List.mem_of_mem_filter hp)
        · exact fun heq => h (List.map_eq_nil_iff.mp heq)
      refine ⟨hpos, ?_⟩
      rw [hOS, hW, if_pos hpos]
      congr 1
      rw [hAE, hE]
      simp only [List.map_map]
      rw [zip_map_self]
      simp only [List.map_map]
      rfl

/-- C7 witness: a golden standard with two angles of which only
`left_shoulder` appears in the test frames; `right_shoulder` is excluded from
both the numerator and the (weight) denominator, and the overall score is
`(100 × 1/2) / (1/2) = 100`. -/
theorem c7_overall_score_witness :
    let golden : List (String × GoldenStats) :=
      [("left_shoulder", { mean := 60, variance := 0, min := 60, max := 60,
                           count := 2, confidence := 1 / 2 }),
       ("right_shoulder", { mean := 45, variance := 0, min := 45, max := 45,
                            count := 1, confidence := 1 / 4 })]
    let test : List FrameAngles := [[("left_shoulder", (60 : ℚ))]]
    let r : EvalResult :=
      { overall_score := 100,
        angle_evaluations := [("left_shoulder",
          { test_mean := 60, golden_mean := 60, deviation := 0, tolerance := 15,
            mean_based_score := 100, dtw_score := none, combined_score := 100,
            score := 100, status := "EXCELLENT" })],
        total_frames := 1 }
    r.angle_evaluations.map Prod.fst = (includedAngles test golden).map Prod.fst ∧
    (includedAngles test golden = [] → r.overall_score = 0) ∧
    (includedAngles test golden ≠ [] →
      0 < ((includedAngles test golden).map (fun p => p.2.confidence)).sum ∧
      r.overall_score =
        ((r.angle_evaluations.zip (includedAngles test golden)).map
          (fun q => q.1.2.combined_score * q.2.2.confidence)).sum /
        ((includedAngles test golden).map (fun p => p.2.confidence)).sum) :=
  c7_overall_score_weighted [] [] [[("left_shoulder", (60 : ℚ))]]
    [("left_shoulder", { mean := 60, variance := 0, min := 60, max := 60,
                         count := 2, confidence := 1 / 2 }),
     ("right_shoulder", { mean := 45, variance := 0, min := 45, max := 45,
                          count := 1, confidence := 1 / 4 })]
    { overall_score := 100,
      angle_evaluations := [("left_shoulder",
        { test_mean := 60, golden_mean := 60, deviation := 0, tolerance := 15,
          mean_based_score := 100, dtw_score := none, combined_score := 100,
          score := 100, status := "EXCELLENT" })],
      total_frames := 1 }
    (by
      norm_num [evaluate_angles, evalEntries, testAngleMeans, meanOpt, collectValues,
        alookup, evalAngle, staticScore, statusOf, List.lookup, List.filterMap_cons,
        EvalResult.mk.injEq, AngleEval.mk.injEq]
      simp
      norm_num)
    (by decide)
    (by
      intro p hp
      simp only [List.mem_cons, List.not_mem_nil, or_false] at hp
      rcases hp with rfl | rfl <;> norm_num)

/-- C10: an angle present in the golden statistics and observed in the test
frames but missing from the pose configuration's tolerance table is still
scored — with the default tolerance of 15 degrees
(`self.angle_config['tolerances'].get(angle_name, 15)`, line 556). -/
theorem c10_default_tolerance (tolerances dtwScores : List (String × ℚ))
    (test_angles : List FrameAngles) (golden_angles : List (String × GoldenStats))
    (r : EvalResult) (nm : String) (st : GoldenStats)
    (hr : evaluate_angles tolerances dtwScores test_angles golden_angles = some r)
    (hnd : (golden_angles.map Prod.fst).Nodup)
    (hmem : (nm, st) ∈ golden_angles)
    (hvals : collectValues test_angles nm ≠ [])
    (htol : alookup nm tolerances = none) :
    ∃ e, (nm, e) ∈ r.angle_evaluations ∧ e.tolerance = 15 := by
  rcases eq_or_ne test_angles [] with hnil | hnil
  · rw [evaluate_angles, if_pos hnil] at hr
    cases hr
  · rw [evaluate_angles, if_neg hnil] at hr
    have hrr := Option.some.inj hr
    have hAE : r.angle_evaluations =
        (evalEntries tolerances dtwScores test_angles golden_angles).map
          (fun t => (t.1, t.2.2)) := by
      rw [← hrr]
    have hE := evalEntries_eq tolerances dtwScores test_angles golden_angles hnd
    have hincl : (nm, st) ∈ includedAngles test_angles golden_angles := by
      rw [includedAngles, List.mem_filter]
      exact ⟨hmem, by simp [List.isEmpty_iff, hvals]⟩
    refine ⟨evalAngle
      ((collectValues test_angles nm).sum / ((collectValues test_angles nm).length : ℚ))
      st.mean ((alookup nm tolerances).getD 15) (alookup nm dtwScores), ?_, ?_⟩
    · rw [hAE, hE, List.map_map]
      exact List.mem_map.mpr ⟨(nm, st), hincl, rfl⟩
    · rw [htol]
      rfl

/-- C10 witness: `spine_alignment` is absent from the (empty) tolerance
table, yet it is scored with tolerance 15. -/
theorem c10_default_tolerance_witness :
    ∃ e, ("spine_alignment", e) ∈
        (({ overall_score := 100,
            angle_evaluations := [("spine_alignment",
              { test_mean := 40, golden_mean := 40, deviation := 0, tolerance := 15,
                mean_based_score := 100, dtw_score := none, combined_score := 100,
                score := 100, status := "EXCELLENT" })],
            total_frames := 1 } : EvalResult)).angle_evaluations ∧
      e.tolerance = 15 :=
  c10_default_tolerance [] [] [[("spine_alignment", (40 : ℚ))]]
    [("spine_alignment", { mean := 40, variance := 0, min := 40, max := 40,
                           count := 3, confidence := 1 })]
    { overall_score := 100,
      angle_evaluations := [("spine_alignment",
        { test_mean := 40, golden_mean := 40, deviation := 0, tolerance := 15,
          mean_based_score := 100, dtw_score := none, combined_score := 100,
          score := 100, status := "EXCELLENT" })],
      total_frames := 1 }
    "spine_alignment"
    { mean := 40, variance := 0, min := 40, max := 40, count := 3, confidence := 1 }
    (by norm_num [evaluate_angles, evalEntries, testAngleMeans, meanOpt, collectValues,
      alookup, evalAngle, staticScore, statusOf, List.lookup, List.filterMap_cons,
      EvalResult.mk.injEq, AngleEval.mk.injEq])
    (by decide)
    (by simp)
    (by simp [collectValues, List.lookup])
    rfl

/- ## Angle calculator: `calculate_angles` (`yoga_pose_analyzer.py`, lines 198-380) -/

/-- A 3D point `{x, y, z}` (the spine-alignment midpoints carry no
visibility score). -/
structure LPoint where
  x : ℚ
  y : ℚ
  z : ℚ

/-- One detected landmark: position and visibility score. -/
structure Landmark where
  x : ℚ
  y : ℚ
  z : ℚ
  visibility : ℚ

/-- The `{x, y, z}` part of a landmark, as consumed by `_calculate_angle`. -/
def Landmark.pt (l : Landmark) : LPoint := ⟨l.x, l.y, l.z⟩

/-- `point1 - point2` componentwise (lines 210-219). -/
def vsub (p q : LPoint) : LPoint := ⟨p.x - q.x, p.y - q.y, p.z - q.z⟩

/-- `np.dot` of two 3-vectors. -/
def dotP (u w : LPoint) : ℚ := u.x * w.x + u.y * w.y + u.z * w.z

/-- Squared euclidean norm; `np.linalg.norm(u) * np.linalg.norm(w) = 0` iff
`normSq u = 0 ∨ normSq w = 0`. -/
def normSq (u : LPoint) : ℚ := dotP u u

/-- Midpoint of two landmarks' positions (lines 361-370). -/
def midP (a b : LPoint) : LPoint :=
  ⟨(a.x + b.x) / 2, (a.y + b.y) / 2, (a.z + b.z) / 2⟩

/-- `_calculate_angle` (lines 198-233).  The result is an `Option ℝ` in which
`none` models the IEEE NaN the source produces on degenerate input: the
division `np.dot / (norm * norm)` is numpy scalar arithmetic, so a
zero-length vector gives `0.0 / 0.0 = nan` with a `RuntimeWarning` — no
`ZeroDivisionError` is raised — and then `np.clip(nan, -1, 1) = nan`,
`math.acos(nan) = nan`, `math.degrees(nan) = nan`.  The
`except (ZeroDivisionError, ValueError)` branch returning Python `None` is
therefore dead code and has no counterpart in the model.  `np.clip` is
`max (-1) (min 1 ·)` and `math.degrees` multiplies by `180 / π`. -/
noncomputable def calculate_angle (point1 point2 point3 : LPoint) : Option ℝ :=
  let vector1 := vsub point1 point2
  let vector2 := vsub point3 point2
  if normSq vector1 = 0 ∨ normSq vector2 = 0 then none
  else
    some (Real.arccos (max (-1) (min 1
      ((dotP vector1 vector2 : ℝ) /
        (Real.sqrt (normSq vector1 : ℝ) * Real.sqrt (normSq vector2 : ℝ))))) * 180 / Real.pi)

/-- `_check_landmarks_visible` (lines 235-251): `False` if a listed landmark
is missing or its visibility is below the threshold, `True` otherwise. -/
def check_landmarks_visible (visibility_threshold : ℚ)
    (landmarks : List (String × Landmark)) (landmark_names : List String) : Bool :=
  landmark_names.all (fun name =>
    match alookup name landmarks with
    | none => false
    | some l => if l.visibility < visibility_threshold then false else true)

/-- One `if`-block of `calculate_angles` (e.g. lines 274-282): if the angle
is configured and its three landmarks are visible, compute it at the vertex
`p2` and store the result under `angleName`.  Because `_calculate_angle`
never actually returns `None` (see `calculate_angle`), the
`if angle is not None` test always passes and the (possibly NaN) value is
stored. -/
noncomputable def calcTriple (cfgAngles : List String) (visibility_threshold : ℚ)
    (landmarks : List (String × Landmark)) (angleName p1 p2 p3 : String) :
    List (String × Option ℝ) :=
  if angleName ∈ cfgAngles then
    if check_landmarks_visible visibility_threshold landmarks [p1, p2, p3] then
      match alookup p1 landmarks, alookup p2 landmarks, alookup p3 landmarks with
      | some l1, some l2, some l3 => [(angleName, calculate_angle l1.pt l2.pt l3.pt)]
      | _, _, _ => []
    else []
  else []

/-- The `spine_alignment` block (lines 358-378): the angle at the shoulder
midpoint between the hip midpoint and the nose. -/
noncomputable def calcSpine (cfgAngles : List String) (visibility_threshold : ℚ)
    (landmarks : List (String × Landmark)) : List (String × Option ℝ) :=
  if "spine_alignment" ∈ cfgAngles then
    if check_landmarks_visible visibility_threshold landmarks
        ["left_hip", "right_hip", "left_shoulder", "right_shoulder", "nose"] then
      match alookup "left_hip" landmarks, alookup "right_hip" landmarks,
          alookup "left_shoulder" landmarks, alookup "right_shoulder" landmarks,
          alookup "nose" landmarks with
      | some lh, some rh, some ls, some rs, some nz =>
        [("spine_alignment", calculate_angle (midP lh.pt rh.pt) (midP ls.pt rs.pt) nz.pt)]
      | _, _, _, _, _ => []
    else []
  else []

/-- `calculate_angles` (lines 253-380): the eight landmark-triple blocks in
source order, then the spine block; each angle's visibility is checked
independently, giving a partial mapping. -/
noncomputable def calculate_angles (cfgAngles : List String)
    (visibility_threshold : ℚ) (landmarks : List (String × Landmark)) :
    List (String × Option ℝ) :=
  calcTriple cfgAngles visibility_threshold landmarks
    "left_shoulder" "left_shoulder" "left_elbow" "left_wrist" ++
  calcTriple cfgAngles visibility_threshold landmarks
    "right_shoulder" "right_shoulder" "right_elbow" "right_wrist" ++
  calcTriple cfgAngles visibility_threshold landmarks
    "left_hip" "left_shoulder" "left_hip" "left_knee" ++
  calcTriple cfgAngles visibility_threshold landmarks
    "right_hip" "right_shoulder" "right_hip" "right_knee" ++
  calcTriple cfgAngles visibility_threshold landmarks
    "left_knee" "left_hip" "left_knee" "left_ankle" ++
  calcTriple cfgAngles visibility_threshold landmarks
    "right_knee" "right_hip" "right_knee" "right_ankle" ++
  calcTriple cfgAngles visibility_threshold landmarks
    "left_elbow" "left_shoulder" "left_elbow" "left_wrist" ++
  calcTriple cfgAngles visibility_threshold landmarks
    "right_elbow" "right_shoulder" "right_elbow" "right_wrist" ++
  calcSpine cfgAngles visibility_threshold landmarks

/-- The tracked angle names of the `downward-dog` entry of
`POSE_ANGLE_DEFINITIONS` (lines 24-30). -/
def downwardDogAngles : List String :=
  ["left_shoulder", "right_shoulder", "left_hip", "right_hip",
   "left_knee", "right_knee", "spine_alignment"]

/-- A frame in which `left_shoulder` and `left_elbow` coincide (all three
left-arm landmarks fully visible) and every other landmark is missing. -/
def lmsDegenerate : List (String × Landmark) :=
  [("left_shoulder", { x := 1 / 2, y := 1 / 2, z := 0, visibility := 1 }),
   ("left_elbow", { x := 1 / 2, y := 1 / 2, z := 0, visibility := 1 }),
   ("left_wrist", { x := 7 / 10, y := 1 / 2, z := 0, visibility := 1 })]

/-- C3: the claim fails on the code — on a frame where all of
`left_shoulder`'s defining landmarks meet the visibility threshold but the
first difference vector has zero length (`left_shoulder` and `left_elbow`
coincide), `calculate_angles` does not omit the angle: it stores a NaN
placeholder (`none`) under `left_shoulder`, because numpy's `0.0/0.0`
produces NaN instead of raising the `ZeroDivisionError` the source tries to
catch, and `if angle is not None` accepts NaN. -/
theorem c3_degenerate_vector_yields_nan_entry :
    calculate_angles downwardDogAngles (3 / 10) lmsDegenerate =
      [("left_shoulder", (none : Option ℝ))] := by
  have h1 : calcTriple downwardDogAngles (3 / 10) lmsDegenerate
      "left_shoulder" "left_shoulder" "left_elbow" "left_wrist" =
      [("left_shoulder", (none : Option ℝ))] := by
    simp [calcTriple, check_landmarks_visible, alookup, lmsDegenerate,
      downwardDogAngles, calculate_angle, vsub, dotP, normSq, Landmark.pt]
    norm_num
  have h2 : calcTriple downwardDogAngles (3 / 10) lmsDegenerate
      "right_shoulder" "right_shoulder" "right_elbow" "right_wrist" = [] := by
    simp [calcTriple, check_landmarks_visible, alookup, lmsDegenerate, downwardDogAngles]
  have h3 : calcTriple downwardDogAngles (3 / 10) lmsDegenerate
      "left_hip" "left_shoulder" "left_hip" "left_knee" = [] := by
    simp [calcTriple, check_landmarks_visible, alookup, lmsDegenerate, downwardDogAngles]
  have h4 : calcTriple downwardDogAngles (3 / 10) lmsDegenerate
      "right_hip" "right_shoulder" "right_hip" "right_knee" = [] := by
    simp [calcTriple, check_landmarks_visible, alookup, lmsDegenerate, downwardDogAngles]
  have h5 : calcTriple downwardDogAngles (3 / 10) lmsDegenerate
      "left_knee" "left_hip" "left_knee" "left_ankle" = [] := by
    simp [calcTriple, check_landmarks_visible, alookup, lmsDegenerate, downwardDogAngles]
  have h6 : calcTriple downwardDogAngles (3 / 10) lmsDegenerate
      "right_knee" "right_hip" "right_knee" "right_ankle" = [] := by
    simp [calcTriple, check_landmarks_visible, alookup, lmsDegenerate, downwardDogAngles]
  have h7 : calcTriple downwardDogAngles (3 / 10) lmsDegenerate
      "left_elbow" "left_shoulder" "left_elbow" "left_wrist" = [] := by
    simp [calcTriple, downwardDogAngles]
  have h8 : calcTriple downwardDogAngles (3 / 10) lmsDegenerate
      "right_elbow" "right_shoulder" "right_elbow" "right_wrist" = [] := by
    simp [calcTriple, downwardDogAngles]
  have h9 : calcSpine downwardDogAngles (3 / 10) lmsDegenerate = [] := by
    simp [calcSpine, check_landmarks_visible, alookup, lmsDegenerate, downwardDogAngles]
  rw [calculate_angles, h1, h2, h3, h4, h5, h6, h7, h8, h9]
  rfl
